import Mathlib

/-!
Shallow embedding of the xDS snapshotter of nebucloud/pkg
(packages `xds/snapshot`, `xds/snapshot/apigateway`, `xds/report`),
together with theorems settling the specification claims.

Go slices become `List`, Go maps become association lists (with a note
wherever Go map iteration order would matter), `int32`/`int64` become `Int`,
`uint64` becomes `Nat`, fallible calls return `Except String _`, and the
stateful reconcile passes are modelled as explicit state-passing functions.
-/

namespace Xds

/-! ## Envoy type URLs (go-control-plane `resource/v3` constants) -/

def ListenerType : String := "type.googleapis.com/envoy.config.listener.v3.Listener"

def RouteType : String := "type.googleapis.com/envoy.config.route.v3.RouteConfiguration"

def ClusterType : String := "type.googleapis.com/envoy.config.cluster.v3.Cluster"

def EndpointType : String := "type.googleapis.com/envoy.config.endpoint.v3.ClusterLoadAssignment"

/-- Model of `mapTypeURL` from `xds/snapshot/snapshotter.go`: the Go `switch` on the
request type URL, returning the name of the snapshot cache bucket. -/
def mapTypeURL (typeURL : String) : String :=
  if typeURL = ListenerType ∨ typeURL = RouteType ∨ typeURL = ClusterType then "services"
  else if typeURL = EndpointType then "endpoints"
  else ""

/-- The keys of the `Caches` map built in `NewSnapshotter`
(`muxCache.Caches = {"services": ..., "endpoints": ...}`). A classification
result that is not one of these keys has no backing cache. -/
def muxCacheKeys : List String := ["services", "endpoints"]

/-! ## Envoy resource model

Only the fields the snapshotter actually sets are modelled; fields the Go
code always leaves constant are kept as constant-valued fields so the
structures stay in one-to-one correspondence with the protos built in
`services.go`, `apigateway.go` and `snapshot_endpoints.go`. -/

/-- Model of `routev3.Route`: the snapshotter only ever sets `Name`, the path-prefix
match (`RouteMatch_Prefix`) and the target cluster (`RouteAction_Cluster`). -/
structure Route where
  name : String
  prefixValue : String
  cluster : String
deriving DecidableEq, Repr

structure VirtualHost where
  name : String
  domains : List String
  routes : List Route
deriving DecidableEq, Repr

structure RouteConfiguration where
  name : String
  virtualHosts : List VirtualHost
deriving DecidableEq, Repr

/-- Model of `listenerv3.Listener` as built by this repository: a name plus an
`ApiListener` wrapping an `HttpConnectionManager` whose filters are the
constant router filter and whose `RouteSpecifier` is an inline
`RouteConfiguration`. The constant filter chain is elided; the embedded
route configuration is kept. -/
structure Listener where
  name : String
  apiListener : Option RouteConfiguration
deriving DecidableEq, Repr

/-- Model of `clusterv3.Cluster` as built in `kubeServicesToResources`: all fields
except the name are constants in the source (EDS discovery, round-robin,
EDS config over ADS), kept here as constant-valued fields. -/
structure Cluster where
  name : String
  discoveryType : String := "EDS"
  lbPolicy : String := "ROUND_ROBIN"
  edsConfigAds : Bool := true
deriving DecidableEq, Repr

/-- Model of `endpointv3.LbEndpoint`: socket address (TCP protocol constant elided)
plus the resolved hostname. -/
structure LbEndpoint where
  ip : String
  portValue : Int
  hostname : String
deriving DecidableEq, Repr

/-- Model of `endpointv3.LocalityLbEndpoints` with the constant weight 1 and empty
locality set by the source. -/
structure LocalityLbEndpoints where
  loadBalancingWeight : Nat := 1
  lbEndpoints : List LbEndpoint
deriving DecidableEq, Repr

structure ClusterLoadAssignment where
  clusterName : String
  endpoints : List LocalityLbEndpoints
deriving DecidableEq, Repr

/-- Model of `types.Resource` restricted to the four resource kinds this program
produces. -/
inductive Resource where
  | listener : Listener → Resource
  | routeConfiguration : RouteConfiguration → Resource
  | cluster : Cluster → Resource
  | clusterLoadAssignment : ClusterLoadAssignment → Resource
deriving DecidableEq, Repr

def typeURLOf : Resource → String
  | .listener _ => ListenerType
  | .routeConfiguration _ => RouteType
  | .cluster _ => ClusterType
  | .clusterLoadAssignment _ => EndpointType

/-! ## Kubernetes input model -/

structure ServicePort where
  name : String
  port : Int
deriving DecidableEq, Repr

/-- Model of `corev1.Service` restricted to the fields the snapshotter reads:
metadata name, metadata namespace (field `nspace`, since `namespace` is a
Lean keyword), annotations and spec ports. -/
structure KubeService where
  name : String
  nspace : String
  annotations : List (String × String)
  ports : List ServicePort
deriving DecidableEq, Repr

/-- Go `net.JoinHostPort`: brackets the host when it contains a colon
(the containment test is phrased on the character list so it computes). -/
def joinHostPort (host port : String) : String :=
  if host.data.contains ':' then "[" ++ host ++ "]:" ++ port else host ++ ":" ++ port

/-! ## `kubeServicesToResources` (services.go)

The per-port literals of the Go loop body are named `mkSvc*`; the function
itself reproduces the append-building double loop. -/

def fullServiceName (svc : KubeService) : String := svc.name ++ "." ++ svc.nspace

def targetHostPort (svc : KubeService) (port : ServicePort) : String :=
  joinHostPort (fullServiceName svc) port.name

def targetHostPortNumber (svc : KubeService) (port : ServicePort) : String :=
  joinHostPort (fullServiceName svc) (toString port.port)

def mkSvcRouteConfig (svc : KubeService) (port : ServicePort) : RouteConfiguration :=
  { name := targetHostPortNumber svc port
    virtualHosts := [
      { name := targetHostPort svc port
        domains := [fullServiceName svc, targetHostPort svc port,
                    targetHostPortNumber svc port, svc.name]
        routes := [{ name := "default", prefixValue := "", cluster := targetHostPort svc port }] } ] }

def mkSvcListener (svc : KubeService) (port : ServicePort) : Listener :=
  { name := targetHostPortNumber svc port
    apiListener := some (mkSvcRouteConfig svc port) }

def mkSvcCluster (svc : KubeService) (port : ServicePort) : Cluster :=
  { name := targetHostPort svc port }

/-- Model of `kubeServicesToResources`: for each service and each port, append the
listener, the route configuration and the cluster, in that order. -/
def kubeServicesToResources (services : List KubeService) : List Resource :=
  services.foldl (fun out svc =>
    svc.ports.foldl (fun out port =>
      out ++ [Resource.listener (mkSvcListener svc port),
              Resource.routeConfiguration (mkSvcRouteConfig svc port),
              Resource.cluster (mkSvcCluster svc port)]) out) []

def svcPortResources (svc : KubeService) (port : ServicePort) : List Resource :=
  [Resource.listener (mkSvcListener svc port),
   Resource.routeConfiguration (mkSvcRouteConfig svc port),
   Resource.cluster (mkSvcCluster svc port)]

/-! ## Kubernetes Endpoints model (snapshot_endpoints.go) -/

structure EndpointPort where
  name : String
  port : Int
deriving DecidableEq, Repr

structure ObjectReference where
  name : String
  nspace : String
deriving DecidableEq, Repr

/-- Model of `corev1.EndpointAddress`: IP, optional hostname, optional target
reference, optional node name (a Go `*string`). -/
structure EndpointAddress where
  ip : String
  hostname : String
  targetRef : Option ObjectReference
  nodeName : Option String
deriving DecidableEq, Repr

structure EndpointSubset where
  addresses : List EndpointAddress
  ports : List EndpointPort
deriving DecidableEq, Repr

/-- Model of `corev1.Endpoints` restricted to the fields the transform reads. -/
structure KubeEndpoints where
  name : String
  nspace : String
  resourceVersion : String
  subsets : List EndpointSubset
deriving DecidableEq, Repr

/-- Go's `<` on strings: strict lexicographic comparison, byte-wise on the
UTF-8 encoding, which coincides with code-point-wise comparison on the
character lists (UTF-8 preserves code point order). -/
def goStringLT : List Char → List Char → Bool
  | [], [] => false
  | [], _ :: _ => true
  | _ :: _, [] => false
  | a :: as, b :: bs =>
    if a.toNat < b.toNat then true
    else if b.toNat < a.toNat then false
    else goStringLT as bs

/-- Go's `<=` on strings (`¬ (y < x)`), the total preorder underlying the
sort of the endpoint addresses. -/
def goStringLE (x y : String) : Prop := goStringLT y.data x.data = false

instance : DecidableRel goStringLE := fun _ _ =>
  inferInstanceAs (Decidable (_ = false))

/-- The order used on addresses. The source runs
`sort.SliceStable(sortedAddresses, func(i, j) { return l.IP < r.IP })`:
a stable sort with strict less `l.IP < r.IP`, which is exactly the stable
sort with respect to the total preorder `¬ (b.ip < a.ip)`. -/
def addrLE (a b : EndpointAddress) : Prop := goStringLE a.ip b.ip

instance : DecidableRel addrLE := fun a b =>
  inferInstanceAs (Decidable (goStringLE a.ip b.ip))

/-- The in-place `sort.SliceStable` of the source, modelled as the (unique)
stable sort: insertion sort with respect to `addrLE`. -/
def sortAddresses (as : List EndpointAddress) : List EndpointAddress :=
  List.insertionSort addrLE as

/-- Hostname precedence of the source: the literal two `if` statements
(explicit hostname, else `targetRef.Name.targetRef.Namespace`, else node
name, else empty). -/
def resolveHostname (addr : EndpointAddress) : String :=
  let h1 := addr.hostname
  let h2 := if h1 = "" then
      match addr.targetRef with
      | some ref => ref.name ++ "." ++ ref.nspace
      | none => h1
    else h1
  if h2 = "" then
    match addr.nodeName with
    | some n => n
    | none => h2
  else h2

/-- The `portName` computed per subset port: `name.namespace:port` when the
port has no name, `name.namespace:portName` otherwise. -/
def claName (ep : KubeEndpoints) (port : EndpointPort) : String :=
  if port.name = "" then ep.name ++ "." ++ ep.nspace ++ ":" ++ toString port.port
  else ep.name ++ "." ++ ep.nspace ++ ":" ++ port.name

/-- One `LbEndpoint` appended per (sorted) address: TCP socket address with
the address IP and `uint32(port.Port)` (two's-complement wrap of the int32
port), plus the resolved hostname. -/
def mkLbEndpoint (port : EndpointPort) (addr : EndpointAddress) : LbEndpoint :=
  { ip := addr.ip
    portValue := port.port % 4294967296
    hostname := resolveHostname addr }

/-- The `ClusterLoadAssignment` built for one subset port: a single
`LocalityLbEndpoints` of weight 1 whose endpoints are the subset's
addresses sorted by IP, in order. -/
def mkClusterLoadAssignment (ep : KubeEndpoints) (port : EndpointPort)
    (addresses : List EndpointAddress) : ClusterLoadAssignment :=
  { clusterName := claName ep port
    endpoints := [{ loadBalancingWeight := 1
                    lbEndpoints := (sortAddresses addresses).map (mkLbEndpoint port) }] }

/-- One subset of the conversion loop. The Go loop aliases
`sortedAddresses := subset.Addresses` and sorts it in place once per port
(re-sorting an already sorted slice is the identity for a stable sort), so
every port of the subset sees `sortAddresses subset.addresses`, and the
subset's own `Addresses` slice ends up sorted whenever the port loop ran at
least once. The mutation of the input object is returned explicitly as the
second component. -/
def convertSubset (ep : KubeEndpoints) (s : EndpointSubset) :
    List Resource × EndpointSubset :=
  (s.ports.map fun port =>
      Resource.clusterLoadAssignment (mkClusterLoadAssignment ep port s.addresses),
   { s with addresses := if s.ports.isEmpty then s.addresses else sortAddresses s.addresses })

/-- The conversion part of `kubeEndpointToResources` (the subset/port double
loop): produces the resources and the endpoint object as it stands after
the in-place sorts. -/
def kubeEndpointToResourcesCore (ep : KubeEndpoints) : List Resource × KubeEndpoints :=
  (ep.subsets.flatMap fun s => (convertSubset ep s).1,
   { ep with subsets := ep.subsets.map fun s => (convertSubset ep s).2 })

/-! Concrete inputs used by witnesses. -/

def addrA : EndpointAddress := ⟨"1.1.1.1", "", none, none⟩

def addrB : EndpointAddress := ⟨"2.2.2.2", "", none, none⟩

def epSortWitness : KubeEndpoints :=
  ⟨"svc", "ns", "1", [⟨[addrB, addrA], [⟨"grpc", 80⟩]⟩]⟩

def epSortWitnessPerm : KubeEndpoints :=
  ⟨"svc", "ns", "1", [⟨[addrA, addrB], [⟨"grpc", 80⟩]⟩]⟩

def locSortWitness : LocalityLbEndpoints :=
  ⟨1, (sortAddresses [addrB, addrA]).map (mkLbEndpoint ⟨"grpc", 80⟩)⟩

/-- The frame relation between an input subset and the corresponding
subset of the object after the transform: ports unchanged, address
multiset unchanged, and the address list either untouched or sorted. -/
def subsetFrameRel (s1 s2 : EndpointSubset) : Prop :=
  s2.ports = s1.ports ∧ s2.addresses.Perm s1.addresses ∧
    (s2.addresses = s1.addresses ∨ s2.addresses = sortAddresses s1.addresses)

/-! ## go-memdb model (snapshotter.go `createMemDB` and its uses)

`createMemDB` builds a schema with a single table `"services"` whose only
index is `id`, a `StringFieldIndex` over the Go struct field `ID`.
Transactions on a table absent from the schema fail with an
invalid-table error, and inserting an object whose type has no `ID`
field fails with an invalid-field error, exactly as in go-memdb. -/

structure EndpointCacheItem where
  version : String
  resources : List Resource
deriving DecidableEq, Repr

/-- The three Go value types this repository ever hands to memdb:
`corev1.Service` (services.go), `corev1.Endpoints` and
`endpointCacheItem` (snapshot_endpoints.go). -/
inductive DBValue where
  | service : KubeService → DBValue
  | endpointsObj : KubeEndpoints → DBValue
  | cacheItem : EndpointCacheItem → DBValue
deriving DecidableEq, Repr

/-- go-memdb `StringFieldIndex{Field: "ID"}.FromObject`: reflection lookup
of a struct field named `ID`. None of the three stored Go types declares a
field named `ID` (`corev1.Service` and `corev1.Endpoints` have
`TypeMeta`/`ObjectMeta`/..., `endpointCacheItem` has `version` and
`resources`), so the lookup fails for every value this program stores. -/
def stringFieldID : DBValue → Except String String
  | .service _ => .error "field ID for corev1.Service is invalid"
  | .endpointsObj _ => .error "field ID for corev1.Endpoints is invalid"
  | .cacheItem _ => .error "field ID for endpointCacheItem is invalid"

/-- A memdb database: the schema's table names plus the committed rows
(table, indexed id, value). -/
structure MemDB where
  tables : List String
  rows : List (String × String × DBValue)
deriving DecidableEq, Repr

/-- Model of `createMemDB`: schema with only the `services` table. -/
def createMemDB : MemDB := { tables := ["services"], rows := [] }

/-- Model of `txn.First(table, "id", key)`: error when the table is not in the
schema, otherwise the first matching row if any. -/
def txnFirst (db : MemDB) (table : String) (id : String) :
    Except String (Option DBValue) :=
  if table ∈ db.tables then
    .ok (((db.rows.filter fun r => r.1 = table ∧ r.2.1 = id).head?).map fun r => r.2.2)
  else .error ("invalid table " ++ table)

/-- Model of `txn.Insert(table, v)`: error when the table is not in the schema or
the value has no `ID` field for the `id` index; otherwise upsert the row. -/
def txnInsert (db : MemDB) (table : String) (v : DBValue) : Except String MemDB :=
  if table ∈ db.tables then
    match stringFieldID v with
    | .error e => .error e
    | .ok id =>
      .ok { db with
            rows := (table, id, v) :: db.rows.filter fun r => ¬(r.1 = table ∧ r.2.1 = id) }
  else .error ("invalid table " ++ table)

/-- A write transaction inserting several values: on the first failing
insert the transaction is aborted (database unchanged, error returned);
otherwise all inserts are committed. -/
def insertAll (db : MemDB) (table : String) : List DBValue → Except String MemDB
  | [] => .ok db
  | v :: vs =>
    match txnInsert db table v with
    | .error e => .error e
    | .ok db2 => insertAll db2 table vs

/-- Model of `cache.MetaNamespaceKeyFunc`: `namespace/name`, or just `name` for the
empty namespace. -/
def metaNamespaceKey (ep : KubeEndpoints) : String :=
  if ep.nspace = "" then ep.name else ep.nspace ++ "/" ++ ep.name

/-- Result of `kubeEndpointToResources`: the Go return value, the input
object as it stands afterwards (the in-place sort of the conversion loop),
and the database as it stands afterwards. -/
structure EndpointTransformResult where
  result : Except String (List Resource)
  epAfter : KubeEndpoints
  dbAfter : MemDB
deriving Repr

/-- The fall-through of `kubeEndpointToResources` on a memo miss or stale
version: run the conversion loop (with its in-place sort), then insert the
cache item; an insert failure aborts the write transaction (database
unchanged) and returns the error — after the input was already mutated. -/
def kubeEndpointConvertAndCache (db : MemDB) (ep : KubeEndpoints) : EndpointTransformResult :=
  match txnInsert db "endpoints"
      (.cacheItem ⟨ep.resourceVersion, (kubeEndpointToResourcesCore ep).1⟩) with
  | .error e => ⟨.error e, (kubeEndpointToResourcesCore ep).2, db⟩
  | .ok db2 => ⟨.ok (kubeEndpointToResourcesCore ep).1, (kubeEndpointToResourcesCore ep).2, db2⟩

/-- Model of `kubeEndpointToResources` (snapshot_endpoints.go): memo lookup in the
`endpoints` table, version check, conversion, memo insert. A lookup error
returns before the conversion; a row whose value is not an
`endpointCacheItem` hits the Go type assertion `cached.(endpointCacheItem)`
(a runtime panic in Go, represented as an error result here; no reachable
database contains such a row since every insert in this program fails). -/
def kubeEndpointToResources (db : MemDB) (ep : KubeEndpoints) : EndpointTransformResult :=
  let name := metaNamespaceKey ep
  match txnFirst db "endpoints" name with
  | .error e => ⟨.error e, ep, db⟩
  | .ok cached =>
    match cached with
    | some (.cacheItem item) =>
      if item.version = ep.resourceVersion then ⟨.ok item.resources, ep, db⟩
      else kubeEndpointConvertAndCache db ep
    | some _ => ⟨.error "panic: interface conversion is not endpointCacheItem", ep, db⟩
    | none => kubeEndpointConvertAndCache db ep

/-- Model of `kubeEndpointsToResources` (plural): per endpoint, on error log and
continue with no contribution; collects the merged resource list, the
post-transform objects and the threaded database. -/
def kubeEndpointsToResources (db : MemDB) :
    List KubeEndpoints → List Resource × List KubeEndpoints × MemDB
  | [] => ([], [], db)
  | ep :: eps =>
    let r := kubeEndpointToResources db ep
    let rest := kubeEndpointsToResources r.dbAfter eps
    match r.result with
    | .error _ => (rest.1, r.epAfter :: rest.2.1, rest.2.2)
    | .ok out => (out ++ rest.1, r.epAfter :: rest.2.1, rest.2.2)

/-! ## API gateway (apigateway/apigateway.go) -/

def nameAnnotationKey : String := "xds.nebucloud.com/api-gateway"

def serviceAnnotationKey : String := "xds.nebucloud.com/grpc-service"

def grpcPortName : String := "grpc"

def isNameChar (c : Char) : Bool := ('a' ≤ c && c ≤ 'z') || ('0' ≤ c && c ≤ '9')

/-- Semantics of the anchored regular expression `^[a-z0-9][a-z0-9-]{0,63}$`
(`nameRegex` in apigateway.go): one character of the class `[a-z0-9]`
followed by at most 63 characters of the class `[a-z0-9-]`. -/
def nameRegexMatch (s : String) : Bool :=
  match s.data with
  | [] => false
  | c :: rest => isNameChar c && rest.length ≤ 63 && rest.all fun d => isNameChar d || d = '-'

/-- Go `strings.Split(s, ",")` on the character list: the empty string
splits to `[""]`, separators at the ends produce empty fields. -/
def splitCommaChars : List Char → List (List Char)
  | [] => [[]]
  | c :: rest =>
    let r := splitCommaChars rest
    if c = ',' then [] :: r
    else
      match r with
      | [] => [[c]]
      | g :: gs => (c :: g) :: gs

def splitOnComma (s : String) : List String :=
  (splitCommaChars s.data).map fun cs => String.mk cs

/-- Lookup in the service's annotation map (`svc.Annotations[key]` with the
`ok` flag as `Option`). -/
def lookupAnn (svc : KubeService) (key : String) : Option String :=
  (svc.annotations.find? fun p => p.1 = key).map Prod.snd

/-- The route appended per (gateway, rpc) pair: name `rpc`, prefix match
`/rpc/`, cluster `service.namespace:grpc`. -/
def mkGatewayRoute (svc : KubeService) (rpc : String) : Route :=
  { name := rpc
    prefixValue := "/" ++ rpc ++ "/"
    cluster := svc.name ++ "." ++ svc.nspace ++ ":" ++ grpcPortName }

/-- The route configuration created on first sight of a gateway name: one
virtual host named after the gateway with the gateway as its only domain. -/
def emptyGatewayRC (gateway : String) : RouteConfiguration :=
  { name := gateway
    virtualHosts := [{ name := gateway, domains := [gateway], routes := [] }] }

/-- Model of `routeConfig.VirtualHosts[0].Routes = append(...)` for each rpc. -/
def addRoutes (rc : RouteConfiguration) (routes : List Route) : RouteConfiguration :=
  match rc.virtualHosts with
  | [] => rc
  | vh :: rest => { rc with virtualHosts := { vh with routes := vh.routes ++ routes } :: rest }

/-- Association-list update used to model assignment into the Go
`routerConfigs` map (replace in place, or append a fresh key). -/
def assocSet (l : List (String × RouteConfiguration)) (k : String)
    (v : RouteConfiguration) : List (String × RouteConfiguration) :=
  match l with
  | [] => [(k, v)]
  | (k2, v2) :: rest => if k2 = k then (k, v) :: rest else (k2, v2) :: assocSet rest k v

/-- The two Go maps of `FromKubeServices`, `gateways` (listener per gateway
name; until output only the name matters) and `routerConfigs`, kept in
first-insertion order (Go map iteration order is unspecified; the spec
makes output order immaterial). -/
structure GatewayAcc where
  gateways : List String
  routerConfigs : List (String × RouteConfiguration)
deriving DecidableEq, Repr

/-- The body of the inner `for _, gateway := range apiGateways` loop:
create the gateway's listener and route configuration on first sight, then
append one route per rpc to the gateway's (single, shared) virtual host. -/
def processGateway (svc : KubeService) (rpcs : List String) (acc : GatewayAcc)
    (gateway : String) : GatewayAcc :=
  let acc1 := if gateway ∈ acc.gateways then acc
    else { acc with gateways := acc.gateways ++ [gateway] }
  let rc := match acc1.routerConfigs.lookup gateway with
    | some rc => rc
    | none => emptyGatewayRC gateway
  let rc2 := addRoutes rc (rpcs.map (mkGatewayRoute svc))
  { acc1 with routerConfigs := assocSet acc1.routerConfigs gateway rc2 }

/-- The body of the `outer` service loop of `FromKubeServices`: skip unless
the gateway annotation is present, every comma-separated gateway name
matches the regex (one failure discards the whole service), the gRPC
service annotation is present, and some port is literally named `grpc`;
then for each gateway name append one route per rpc to that gateway's
virtual host. -/
def processService (acc : GatewayAcc) (svc : KubeService) : GatewayAcc :=
  match lookupAnn svc nameAnnotationKey with
  | none => acc
  | some apiGatewayRaw =>
    let apiGateways := splitOnComma apiGatewayRaw
    if ¬ apiGateways.all nameRegexMatch then acc
    else
      match lookupAnn svc serviceAnnotationKey with
      | none => acc
      | some grpcServiceRaw =>
        let rpcs := splitOnComma grpcServiceRaw
        if ¬ svc.ports.any (fun p => p.name = grpcPortName) then acc
        else
          apiGateways.foldl (processGateway svc rpcs) acc

/-- The route configuration a gateway name `g` ends up with after one
eligible service contributes its rpc list: the shared virtual host named
`g` with one route per rpc. -/
def gatewayFullRC (svc : KubeService) (rpcs : List String) (g : String) : RouteConfiguration :=
  { name := g
    virtualHosts := [{ name := g, domains := [g], routes := rpcs.map (mkGatewayRoute svc) }] }

/-- The gateway-validation example service with the non-conforming gateway
name `Bad_Name` (underscore and uppercase are outside `[a-z0-9-]`). -/
def badGatewaySvc : KubeService :=
  ⟨"checkout", "shop", [(nameAnnotationKey, "Bad_Name"), (serviceAnnotationKey, "orders")],
   [⟨"grpc", 50051⟩]⟩

/-- The gateway-validation example service with gateway `valid-name` and
rpc annotation `orders`. -/
def goodGatewaySvc : KubeService :=
  ⟨"checkout", "shop", [(nameAnnotationKey, "valid-name"), (serviceAnnotationKey, "orders")],
   [⟨"grpc", 50051⟩]⟩

def gatewayRouteCount (rc : RouteConfiguration) : Nat :=
  match rc.virtualHosts with
  | vh :: _ => vh.routes.length
  | [] => 0

/-- Model of `FromKubeServices`: fold the service loop, then emit one listener per
gateway (carrying its route configuration), the route configurations, and
the per-gateway route-count stats. -/
def FromKubeServices (services : List KubeService) :
    List Resource × List (String × Nat) :=
  let acc := services.foldl processService { gateways := [], routerConfigs := [] }
  let listeners := acc.gateways.map fun g =>
    Resource.listener { name := g, apiListener := acc.routerConfigs.lookup g }
  let stats := acc.gateways.map fun g =>
    (g, match acc.routerConfigs.lookup g with
        | some rc => gatewayRouteCount rc
        | none => 0)
  (listeners ++ acc.routerConfigs.map fun p => Resource.routeConfiguration p.2, stats)

/-- The eligibility condition of the service loop, as one boolean. -/
def serviceEligible (svc : KubeService) : Bool :=
  match lookupAnn svc nameAnnotationKey with
  | none => false
  | some apiGatewayRaw =>
    (splitOnComma apiGatewayRaw).all nameRegexMatch &&
    (lookupAnn svc serviceAnnotationKey).isSome &&
    svc.ports.any fun p => p.name = grpcPortName

/-! ## Reconcile passes (the `emit` closures of services.go and
snapshot_endpoints.go)

The two closures are modelled as explicit state transformers. The state
is the captured `lastSnapshotHash` plus the shared memdb; the result
records the `SetSnapshot` calls made during the pass and whether the pass
panicked. Side channels that only log (EdgeDB persist, Consul
registration, the kube event counter and the observability gauge maps) are
elided: in the source their errors are logged and have no effect on hash,
publish or state. `resourcesHash` and `cache.NewSnapshot` are parameters:
the former is repository code missing from src/, the latter is the
excluded go-control-plane collaborator; every theorem below holds for all
instantiations. -/

structure Snapshot where
  version : String
  resourcesByType : List (String × List Resource)
deriving Repr

def HashFn : Type := List Resource → Except String Nat

def NewSnapshotFn : Type := String → List (String × List Resource) → Except String Snapshot

/-- Modelled from the spec: `resourcesToMap` is repository code not under
src/ (only call sites are present). Per the spec a ResourceSet is "grouped
by type URL into a mapping typeURL → [Resource]"; modelled as the
association list over the four produced type URLs in fixed order, keeping
non-empty groups. -/
def resourcesToMap (rs : List Resource) : List (String × List Resource) :=
  ([ListenerType, RouteType, ClusterType, EndpointType].map fun t =>
      (t, rs.filter fun r => typeURLOf r = t)).filter fun p => ¬p.2.isEmpty

def resourceName : Resource → String
  | .listener l => l.name
  | .routeConfiguration rc => rc.name
  | .cluster c => c.name
  | .clusterLoadAssignment cla => cla.clusterName

/-- Modelled from the spec: `resourcesHash` is repository code not under
src/ (only call sites are present). The spec fixes only that it is "a
stable hash of a ResourceSet's serialized form" and the call sites show it
can fail, so the pass models take the hash function as a parameter and
every theorem holds for every hash function; this concrete deterministic
instance (a 64-bit polynomial hash over type URLs and resource names) is
used to instantiate witnesses. -/
def resourcesHashModel (rs : List Resource) : Except String Nat :=
  .ok (rs.foldl (fun h r =>
    (typeURLOf r ++ "/" ++ resourceName r).data.foldl
      (fun h c => (h * 131 + c.toNat) % 18446744073709551616) (h + 1)) 7)

structure EmitState where
  lastSnapshotHash : Nat
  db : MemDB
deriving Repr

inductive PassOutcome where
  | completed : PassOutcome
  | panicked : String → PassOutcome
deriving DecidableEq, Repr

structure ServicesEmitResult where
  state : EmitState
  setSnapshotCalls : List Snapshot
  outcome : PassOutcome
deriving Repr

def mergedServiceResources (services : List KubeService) : List Resource :=
  kubeServicesToResources services ++ (FromKubeServices services).1

/-- The post-publish `// Cache services in MemDB` block: a single write
transaction; on the first failing insert it is aborted (and the closure
returns), otherwise committed. -/
def cacheServicesInMemDB (db : MemDB) (services : List KubeService) : MemDB :=
  match insertAll db "services" (services.map DBValue.service) with
  | .ok db2 => db2
  | .error _ => db

/-- Tail of the services pass after the hash gate: `cache.NewSnapshot`
(`panic(err)` on failure), `SetSnapshot`, memdb write-back. -/
def servicesPublish (newSnapshotFn : NewSnapshotFn) (version : String)
    (resourcesByType : List (String × List Resource)) (services : List KubeService)
    (st : EmitState) : ServicesEmitResult :=
  match newSnapshotFn version resourcesByType with
  | .error e => ⟨st, [], .panicked e⟩
  | .ok snapshot =>
    ⟨{ st with db := cacheServicesInMemDB st.db services }, [snapshot], .completed⟩

/-- The services `emit` closure (services.go lines 69-142): build the
service resources, merge the API-gateway resources, hash; if the hash
equals the previous pass's hash return without publishing; on a hash error
log and fall through with `lastSnapshotHash` unchanged; otherwise store the
hash and publish. -/
def servicesEmit (hashFn : HashFn) (newSnapshotFn : NewSnapshotFn) (version : String)
    (services : List KubeService) (st : EmitState) : ServicesEmitResult :=
  let merged := mergedServiceResources services
  let resourcesByType := resourcesToMap merged
  match hashFn merged with
  | .ok hash =>
    if hash = st.lastSnapshotHash then ⟨st, [], .completed⟩
    else servicesPublish newSnapshotFn version resourcesByType services
      { st with lastSnapshotHash := hash }
  | .error _ => servicesPublish newSnapshotFn version resourcesByType services st

structure EndpointsEmitResult where
  state : EmitState
  epsAfter : List KubeEndpoints
  setSnapshotCalls : List Snapshot
  outcome : PassOutcome
deriving Repr

/-- The post-publish `// Cache endpoints in MemDB` block. -/
def cacheEndpointsInMemDB (db : MemDB) (eps : List KubeEndpoints) : MemDB :=
  match insertAll db "endpoints" (eps.map DBValue.endpointsObj) with
  | .ok db2 => db2
  | .error _ => db

/-- Tail of the endpoints pass after the hash gate: `resourcesToMap`,
`cache.NewSnapshot` (`panic(err)` on failure), `SetSnapshot`, memdb
write-back. -/
def endpointsPublish (newSnapshotFn : NewSnapshotFn) (version : String)
    (endpointsResources : List Resource) (epsAfter : List KubeEndpoints)
    (st : EmitState) : EndpointsEmitResult :=
  match newSnapshotFn version (resourcesToMap endpointsResources) with
  | .error e => ⟨st, epsAfter, [], .panicked e⟩
  | .ok snapshot =>
    ⟨{ st with db := cacheEndpointsInMemDB st.db epsAfter }, epsAfter, [snapshot], .completed⟩

/-- The endpoints `emit` closure (snapshot_endpoints.go lines 67-126):
transform the endpoints through the memoizing converter (threading the
memdb state), hash; if the hash equals the previous pass's hash return
without publishing; on a hash error log and fall through with
`lastSnapshotHash` unchanged; otherwise store the hash and publish.
(The plural converter never returns a non-nil error in the source, so its
error branch in the closure is unreachable and not modelled.) -/
def endpointsEmit (hashFn : HashFn) (newSnapshotFn : NewSnapshotFn) (version : String)
    (eps : List KubeEndpoints) (st : EmitState) : EndpointsEmitResult :=
  let c := kubeEndpointsToResources st.db eps
  match hashFn c.1 with
  | .ok hash =>
    if hash = st.lastSnapshotHash then ⟨{ st with db := c.2.2 }, c.2.1, [], .completed⟩
    else endpointsPublish newSnapshotFn version c.1 c.2.1
      { lastSnapshotHash := hash, db := c.2.2 }
  | .error _ => endpointsPublish newSnapshotFn version c.1 c.2.1
      { lastSnapshotHash := st.lastSnapshotHash, db := c.2.2 }

/-! ## Load report server (xds/report/report.go) -/

structure XdsNode where
  id : String
  cluster : String
deriving DecidableEq, Repr

/-- Model of `LoadStatsRequest`: the reporting node and its per-cluster stats (the
stats are only inspected for logging, so only their cluster names are
kept). -/
structure LoadStatsRequest where
  node : Option XdsNode
  clusterStats : List String
deriving DecidableEq, Repr

structure LoadStatsResponse where
  clusters : List String
  loadReportingIntervalSeconds : Int
  reportEndpointGranularity : Bool
deriving DecidableEq, Repr

/-- The mutable state of `MeterServer`: the connected-node set (a Go
`map[string]bool`, modelled as a list without duplicates by construction),
the value of the `lrs_nodes` up-down counter, and the configured reporting
interval. -/
structure MeterServerState where
  nodesConnected : List String
  nodeGauge : Int
  statsIntervalInSeconds : Int
deriving DecidableEq, Repr

/-- Model of `NewMeterServer` with no options: empty node set, default interval
300 seconds. -/
def newMeterServerState : MeterServerState :=
  { nodesConnected := [], nodeGauge := 0, statsIntervalInSeconds := 300 }

/-- Model of `request.GetNode().GetId()`: empty string for a nil node. -/
def getNodeID (req : LoadStatsRequest) : String :=
  (req.node.map XdsNode.id).getD ""

/-- Model of `HandleRequest`: counter bump and logging elided; a node not yet in the
connected set is registered, the gauge incremented, and one response with
the configured interval and endpoint granularity is sent (a send failure,
`sendOk = false`, rolls back the registration and the gauge); a node
already in the set only has its stats logged and nothing is sent. -/
def handleRequest (st : MeterServerState) (req : LoadStatsRequest) (sendOk : Bool) :
    MeterServerState × List LoadStatsResponse :=
  let nodeID := getNodeID req
  if nodeID ∈ st.nodesConnected then (st, [])
  else
    let resp : LoadStatsResponse :=
      { clusters := ["dummy_cluster"]
        loadReportingIntervalSeconds := st.statsIntervalInSeconds
        reportEndpointGranularity := true }
    let st1 := { st with nodesConnected := nodeID :: st.nodesConnected
                         nodeGauge := st.nodeGauge + 1 }
    if sendOk then (st1, [resp])
    else ({ st1 with nodesConnected := st1.nodesConnected.erase nodeID
                     nodeGauge := st1.nodeGauge - 1 }, [resp])

/-- Model of `removeNode`: delete from the connected set and decrement the gauge. -/
def removeNode (st : MeterServerState) (node : XdsNode) : MeterServerState :=
  { st with nodesConnected := st.nodesConnected.erase node.id
            nodeGauge := st.nodeGauge - 1 }

/-- One loop iteration of `StreamLoadStats` (a successful `Recv` followed
by `HandleRequest`, with the send succeeding), accumulating sent
responses. -/
def streamStep (acc : MeterServerState × List LoadStatsResponse)
    (req : LoadStatsRequest) : MeterServerState × List LoadStatsResponse :=
  let h := handleRequest acc.1 req true
  (h.1, acc.2 ++ h.2)

/-- Model of `StreamLoadStats` over a finite receive script: handle each request in
order (all sends succeeding), then a receive error ends the stream; the
captured `node` is the first non-nil request node, and it is deregistered
on the final error if one was captured. -/
def streamLoadStats (st : MeterServerState) (reqs : List LoadStatsRequest) :
    MeterServerState × List LoadStatsResponse :=
  let r := reqs.foldl streamStep (st, [])
  match reqs.findSome? (fun req => req.node) with
  | some node => (removeNode r.1 node, r.2)
  | none => r

theorem foldl_append_eq (l : List α) (f : α → List β) :
    ∀ init : List β, l.foldl (fun out a => out ++ f a) init = init ++ l.flatMap f := by
  induction l with
  | nil => intro init; simp
  | cons a l ih => intro init; simp [List.foldl_cons, ih, List.append_assoc]

theorem kubeServicesToResources_eq (services : List KubeService) :
    kubeServicesToResources services
      = services.flatMap (fun svc => svc.ports.flatMap (svcPortResources svc)) := by
  unfold kubeServicesToResources
  have hstep : (fun (out : List Resource) (svc : KubeService) =>
      svc.ports.foldl (fun out port =>
        out ++ [Resource.listener (mkSvcListener svc port),
                Resource.routeConfiguration (mkSvcRouteConfig svc port),
                Resource.cluster (mkSvcCluster svc port)]) out)
      = fun out svc => out ++ svc.ports.flatMap (svcPortResources svc) := by
    funext out svc
    exact foldl_append_eq svc.ports (svcPortResources svc) out
  rw [hstep]
  simpa using foldl_append_eq services (fun svc => svc.ports.flatMap (svcPortResources svc)) []

/-- C6: the request classifier maps the Listener, RouteConfiguration and
Cluster type URLs to the "services" bucket, the ClusterLoadAssignment
(Endpoint) type URL to the "endpoints" bucket, and every other type URL to
the empty string, which is not among the MuxCache bucket keys (so such a
request has no backing cache and is unroutable rather than a crash). -/
theorem mapTypeURL_classification :
    mapTypeURL ListenerType = "services" ∧
    mapTypeURL RouteType = "services" ∧
    mapTypeURL ClusterType = "services" ∧
    mapTypeURL EndpointType = "endpoints" ∧
    (∀ url : String, url ≠ ListenerType → url ≠ RouteType → url ≠ ClusterType →
      url ≠ EndpointType → mapTypeURL url = "" ∧ "" ∉ muxCacheKeys) := by
  refine ⟨by simp [mapTypeURL], by simp [mapTypeURL], by simp [mapTypeURL],
    by simp [mapTypeURL, ListenerType, RouteType, ClusterType, EndpointType], ?_⟩
  intro url h1 h2 h3 h4
  exact ⟨by simp [mapTypeURL, h1, h2, h3, h4], by simp [muxCacheKeys]⟩

/-- Witness for C6 at the concrete unknown type URL "bogus". -/
theorem mapTypeURL_classification_witness :
    mapTypeURL "bogus" = "" ∧ "" ∉ muxCacheKeys :=
  mapTypeURL_classification.2.2.2.2 "bogus" (by decide) (by decide) (by decide) (by decide)

/-- C5: for every Service and each exposed port, the builder emits exactly
one Listener, one RouteConfiguration and one Cluster; the Listener and the
RouteConfiguration are named `name.namespace:port` (numeric), the Cluster
is named `name.namespace:portName`, and the single virtual host's domains
contain both forms, so the configuration is addressable by both the named
port and the numeric port. -/
theorem service_port_roundtrip_naming :
    (∀ services, kubeServicesToResources services
        = services.flatMap fun svc => svc.ports.flatMap (svcPortResources svc)) ∧
    (∀ (svc : KubeService) (port : ServicePort), port ∈ svc.ports →
      (svcPortResources svc port).length = 3 ∧
      Resource.listener (mkSvcListener svc port) ∈ kubeServicesToResources [svc] ∧
      Resource.routeConfiguration (mkSvcRouteConfig svc port) ∈ kubeServicesToResources [svc] ∧
      Resource.cluster (mkSvcCluster svc port) ∈ kubeServicesToResources [svc] ∧
      (mkSvcListener svc port).name = targetHostPortNumber svc port ∧
      (mkSvcListener svc port).apiListener = some (mkSvcRouteConfig svc port) ∧
      (mkSvcRouteConfig svc port).name = targetHostPortNumber svc port ∧
      (mkSvcCluster svc port).name = targetHostPort svc port ∧
      (∃ vh, (mkSvcRouteConfig svc port).virtualHosts = [vh] ∧
        vh.name = targetHostPort svc port ∧
        targetHostPort svc port ∈ vh.domains ∧
        targetHostPortNumber svc port ∈ vh.domains ∧
        vh.routes = [{ name := "default", prefixValue := "",
                       cluster := targetHostPort svc port }])) := by
  refine ⟨kubeServicesToResources_eq, ?_⟩
  intro svc port hp
  have hmem : ∀ r ∈ svcPortResources svc port, r ∈ kubeServicesToResources [svc] := by
    intro r hr
    rw [kubeServicesToResources_eq]
    simp only [List.flatMap_cons, List.flatMap_nil, List.append_nil]
    exact List.mem_flatMap.mpr ⟨port, hp, hr⟩
  refine ⟨rfl, hmem _ (by simp [svcPortResources]), hmem _ (by simp [svcPortResources]),
    hmem _ (by simp [svcPortResources]), rfl, rfl, rfl, rfl, ?_⟩
  exact ⟨_, rfl, rfl, by simp [mkSvcRouteConfig], by simp [mkSvcRouteConfig], rfl⟩

/-! ## Order lemmas for the Go string comparison, and the endpoint sort -/

theorem goStringLT_total :
    ∀ x y : List Char, goStringLT x y = false ∨ goStringLT y x = false
  | [], [] => .inl rfl
  | [], _ :: _ => .inr rfl
  | _ :: _, [] => .inl rfl
  | a :: as, b :: bs => by
    rcases Nat.lt_trichotomy a.toNat b.toNat with h | h | h
    · right
      simp only [goStringLT]
      rw [if_neg (by omega), if_pos h]
    · rcases goStringLT_total as bs with hrec | hrec
      · left
        simp only [goStringLT]
        rw [if_neg (by omega), if_neg (by omega)]
        exact hrec
      · right
        simp only [goStringLT]
        rw [if_neg (by omega), if_neg (by omega)]
        exact hrec
    · left
      simp only [goStringLT]
      rw [if_neg (by omega), if_pos h]

theorem goStringLT_le_trans :
    ∀ x y z : List Char, goStringLT y x = false → goStringLT z y = false →
      goStringLT z x = false
  | [], _, [], _, _ => rfl
  | [], _, _ :: _, _, _ => rfl
  | _ :: _, [], [], h1, _ => by simp [goStringLT] at h1
  | _ :: _, _ :: _, [], _, h2 => by simp [goStringLT] at h2
  | _ :: _, [], _ :: _, h1, _ => by simp [goStringLT] at h1
  | a :: as, b :: bs, c :: cs, h1, h2 => by
    simp only [goStringLT] at h1 h2 ⊢
    by_cases hba : b.toNat < a.toNat
    · rw [if_pos hba] at h1
      exact absurd h1 (by simp)
    rw [if_neg hba] at h1
    by_cases hcb : c.toNat < b.toNat
    · rw [if_pos hcb] at h2
      exact absurd h2 (by simp)
    rw [if_neg hcb] at h2
    rw [if_neg (show ¬ c.toNat < a.toNat by omega)]
    by_cases hac : a.toNat < c.toNat
    · rw [if_pos hac]
    · rw [if_neg hac]
      rw [if_neg (show ¬ a.toNat < b.toNat by omega)] at h1
      rw [if_neg (show ¬ b.toNat < c.toNat by omega)] at h2
      exact goStringLT_le_trans as bs cs h1 h2

theorem goStringLT_antisymm :
    ∀ x y : List Char, goStringLT x y = false → goStringLT y x = false → x = y
  | [], [], _, _ => rfl
  | [], _ :: _, h1, _ => by simp [goStringLT] at h1
  | _ :: _, [], _, h2 => by simp [goStringLT] at h2
  | a :: as, b :: bs, h1, h2 => by
    simp only [goStringLT] at h1 h2
    by_cases hab : a.toNat < b.toNat
    · rw [if_pos hab] at h1
      exact absurd h1 (by simp)
    rw [if_neg hab] at h1
    by_cases hba : b.toNat < a.toNat
    · rw [if_pos hba] at h2
      exact absurd h2 (by simp)
    rw [if_neg hba] at h1
    rw [if_neg (by omega), if_neg (by omega)] at h2
    have hchar : a = b := by
      have : a.toNat = b.toNat := by omega
      exact Char.ofNat_toNat a ▸ Char.ofNat_toNat b ▸ congrArg Char.ofNat this
    rw [hchar, goStringLT_antisymm as bs h1 h2]

theorem addrLE_total : ∀ a b : EndpointAddress, addrLE a b ∨ addrLE b a :=
  fun a b => goStringLT_total b.ip.data a.ip.data

theorem addrLE_trans : ∀ a b c : EndpointAddress, addrLE a b → addrLE b c → addrLE a c :=
  fun a b c h1 h2 => goStringLT_le_trans a.ip.data b.ip.data c.ip.data h1 h2

theorem addrLE_ip_antisymm {a b : EndpointAddress} (h1 : addrLE a b) (h2 : addrLE b a) :
    a.ip = b.ip :=
  String.ext (goStringLT_antisymm a.ip.data b.ip.data h2 h1)

theorem sortAddresses_perm (as : List EndpointAddress) : (sortAddresses as).Perm as :=
  List.perm_insertionSort addrLE as

theorem sortAddresses_sorted (as : List EndpointAddress) :
    List.Sorted addrLE (sortAddresses as) := by
  haveI : IsTotal EndpointAddress addrLE := ⟨addrLE_total⟩
  haveI : IsTrans EndpointAddress addrLE := ⟨addrLE_trans⟩
  exact List.sorted_insertionSort addrLE as

/-- A stable sort is insensitive to the input order as soon as the sort
keys are pairwise distinct. -/
theorem sortAddresses_eq_of_perm {as1 as2 : List EndpointAddress}
    (hp : as1.Perm as2) (hnd : (as1.map EndpointAddress.ip).Nodup) :
    sortAddresses as1 = sortAddresses as2 := by
  have hperm : (sortAddresses as1).Perm (sortAddresses as2) :=
    (sortAddresses_perm as1).trans (hp.trans (sortAddresses_perm as2).symm)
  haveI : IsAntisymm EndpointAddress fun a b => addrLE a b ∧ a.ip ≠ b.ip :=
    ⟨fun a b h1 h2 => absurd (addrLE_ip_antisymm h1.1 h2.1) h1.2⟩
  have hstrict : ∀ as : List EndpointAddress, (as.map EndpointAddress.ip).Nodup →
      List.Sorted (fun a b : EndpointAddress => addrLE a b ∧ a.ip ≠ b.ip) (sortAddresses as) := by
    intro as hnd'
    have hnds : ((sortAddresses as).map EndpointAddress.ip).Nodup :=
      (((sortAddresses_perm as).map EndpointAddress.ip).nodup_iff).mpr hnd'
    have hne : (sortAddresses as).Pairwise fun a b => a.ip ≠ b.ip :=
      (List.pairwise_map).mp hnds
    exact (sortAddresses_sorted as).and hne
  have hnd2 : (as2.map EndpointAddress.ip).Nodup :=
    ((hp.map EndpointAddress.ip).nodup_iff).mp hnd
  exact List.eq_of_perm_of_sorted hperm (hstrict as1 hnd) (hstrict as2 hnd2)

theorem mkClusterLoadAssignment_congr {ep1 ep2 : KubeEndpoints}
    (hn : ep1.name = ep2.name) (hns : ep1.nspace = ep2.nspace)
    (port : EndpointPort) {as1 as2 : List EndpointAddress}
    (hs : sortAddresses as1 = sortAddresses as2) :
    mkClusterLoadAssignment ep1 port as1 = mkClusterLoadAssignment ep2 port as2 := by
  simp [mkClusterLoadAssignment, claName, hn, hns, hs]

/-- C2 (as stated) is refuted: two addresses sharing the IP `1.1.1.1` but
differing in hostname are a permutation of one another, yet the stable
sort keeps their input order, so the two permutations of the same address
set produce different LbEndpoint lists. -/
theorem endpoint_ordering_counterexample :
    ([⟨"1.1.1.1", "a", none, none⟩, ⟨"1.1.1.1", "b", none, none⟩] : List EndpointAddress).Perm
      [⟨"1.1.1.1", "b", none, none⟩, ⟨"1.1.1.1", "a", none, none⟩] ∧
    (kubeEndpointToResourcesCore
        ⟨"svc", "ns", "1", [⟨[⟨"1.1.1.1", "a", none, none⟩, ⟨"1.1.1.1", "b", none, none⟩],
          [⟨"grpc", 80⟩]⟩]⟩).1 ≠
      (kubeEndpointToResourcesCore
        ⟨"svc", "ns", "1", [⟨[⟨"1.1.1.1", "b", none, none⟩, ⟨"1.1.1.1", "a", none, none⟩],
          [⟨"grpc", 80⟩]⟩]⟩).1 := by
  constructor
  · exact List.Perm.swap _ _ _
  · decide

/-- C2 amended: (i) for every Endpoints object, every produced
ClusterLoadAssignment lists its LbEndpoints sorted ascending by the
lexicographic order of the IP strings; (ii) permutation invariance holds
whenever the IPs of each subset are pairwise distinct: two inputs equal up
to a per-subset permutation of addresses (same metadata and ports) with
duplicate-free IPs produce identical resource lists. (With duplicated IPs
the stable sort preserves the input order of equal-IP addresses, refuting
full permutation invariance; see the counterexample.) -/
theorem endpoint_ordering_amended :
    (∀ (ep : KubeEndpoints) (cla : ClusterLoadAssignment),
      Resource.clusterLoadAssignment cla ∈ (kubeEndpointToResourcesCore ep).1 →
      ∀ loc ∈ cla.endpoints, List.Sorted goStringLE (loc.lbEndpoints.map LbEndpoint.ip)) ∧
    (∀ ep1 ep2 : KubeEndpoints,
      ep1.name = ep2.name → ep1.nspace = ep2.nspace →
      List.Forall₂ (fun s1 s2 => s1.ports = s2.ports ∧ s1.addresses.Perm s2.addresses)
        ep1.subsets ep2.subsets →
      (∀ s ∈ ep1.subsets, (s.addresses.map EndpointAddress.ip).Nodup) →
      (kubeEndpointToResourcesCore ep1).1 = (kubeEndpointToResourcesCore ep2).1) := by
  constructor
  · intro ep cla hmem loc hloc
    simp only [kubeEndpointToResourcesCore, convertSubset, List.mem_flatMap, List.mem_map] at hmem
    obtain ⟨s, _, port, _, hcla⟩ := hmem
    have hcla' : mkClusterLoadAssignment ep port s.addresses = cla :=
      Resource.clusterLoadAssignment.inj hcla
    subst hcla'
    simp only [mkClusterLoadAssignment, List.mem_singleton] at hloc
    subst hloc
    simp only [List.map_map]
    have hcomp : (LbEndpoint.ip ∘ mkLbEndpoint port) = EndpointAddress.ip := rfl
    rw [hcomp]
    exact (List.pairwise_map).mpr (sortAddresses_sorted s.addresses)
  · intro ep1 ep2 hn hns hsub hnd
    simp only [kubeEndpointToResourcesCore]
    have key : ∀ ss1 ss2 : List EndpointSubset,
        List.Forall₂ (fun s1 s2 => s1.ports = s2.ports ∧ s1.addresses.Perm s2.addresses)
          ss1 ss2 →
        (∀ s ∈ ss1, (s.addresses.map EndpointAddress.ip).Nodup) →
        (ss1.flatMap fun s => (convertSubset ep1 s).1)
          = ss2.flatMap fun s => (convertSubset ep2 s).1 := by
      intro ss1 ss2 hsub' hnd'
      induction hsub' with
      | nil => rfl
      | @cons s1 s2 ss1' ss2' hR hrest ih =>
        simp only [List.flatMap_cons]
        have h1 : (convertSubset ep1 s1).1 = (convertSubset ep2 s2).1 := by
          simp only [convertSubset, hR.1]
          apply List.map_congr_left
          intro port _
          rw [mkClusterLoadAssignment_congr hn hns port
            (sortAddresses_eq_of_perm hR.2 (hnd' s1 (by simp)))]
        rw [h1, ih (fun s hs => hnd' s (by simp [hs]))]
    exact key _ _ hsub hnd

/-- Witness for C2 amended: a two-address subset with distinct IPs given in
descending order is produced sorted ascending, and the reversed
(permuted) input produces the identical resource list. -/
theorem endpoint_ordering_amended_witness :
    List.Sorted goStringLE (locSortWitness.lbEndpoints.map LbEndpoint.ip) ∧
    (kubeEndpointToResourcesCore epSortWitness).1 =
      (kubeEndpointToResourcesCore epSortWitnessPerm).1 := by
  constructor
  · exact endpoint_ordering_amended.1 epSortWitness
      (mkClusterLoadAssignment epSortWitness ⟨"grpc", 80⟩ [addrB, addrA])
      (by simp [kubeEndpointToResourcesCore, convertSubset, epSortWitness])
      locSortWitness (by simp [mkClusterLoadAssignment, locSortWitness])
  · exact endpoint_ordering_amended.2 epSortWitness epSortWitnessPerm rfl rfl
      (by simp only [epSortWitness, epSortWitnessPerm]
          exact List.Forall₂.cons ⟨rfl, List.Perm.swap addrA addrB []⟩ List.Forall₂.nil)
      (by decide)

/-- Witness for C5: Service `api` in namespace `prod` with port `grpc:50051`
yields a Cluster named `api.prod:grpc` and a Listener named
`api.prod:50051` whose virtual host lists both domains. -/
theorem service_port_roundtrip_naming_witness :
    Resource.cluster { name := "api.prod:grpc" } ∈
      kubeServicesToResources [⟨"api", "prod", [], [⟨"grpc", 50051⟩]⟩] ∧
    Resource.listener ⟨"api.prod:50051",
        some (mkSvcRouteConfig ⟨"api", "prod", [], [⟨"grpc", 50051⟩]⟩ ⟨"grpc", 50051⟩)⟩ ∈
      kubeServicesToResources [⟨"api", "prod", [], [⟨"grpc", 50051⟩]⟩] ∧
    targetHostPort ⟨"api", "prod", [], [⟨"grpc", 50051⟩]⟩ ⟨"grpc", 50051⟩ = "api.prod:grpc" ∧
    targetHostPortNumber ⟨"api", "prod", [], [⟨"grpc", 50051⟩]⟩ ⟨"grpc", 50051⟩ = "api.prod:50051" := by
  have h := service_port_roundtrip_naming.2 ⟨"api", "prod", [], [⟨"grpc", 50051⟩]⟩
    ⟨"grpc", 50051⟩ (by simp)
  exact ⟨h.2.2.2.1, h.2.1, by decide, by decide⟩

/-! ## Memoization and frame lemmas for the endpoint transform -/

/-- On the database actually constructed by `createMemDB` (which has no
`endpoints` table), every endpoint transform fails at the first lookup:
nothing is ever returned from or written to the memo. -/
theorem kubeEndpointToResources_createMemDB (ep : KubeEndpoints) :
    kubeEndpointToResources createMemDB ep =
      ⟨.error "invalid table endpoints", ep, createMemDB⟩ := by
  have htab : ("endpoints" ∈ createMemDB.tables) = False := by simp [createMemDB]
  simp [kubeEndpointToResources, txnFirst, htab]

theorem kubeEndpointsToResources_createMemDB :
    ∀ eps : List KubeEndpoints,
      kubeEndpointsToResources createMemDB eps = ([], eps, createMemDB)
  | [] => rfl
  | ep :: eps => by
    simp only [kubeEndpointsToResources, kubeEndpointToResources_createMemDB,
      kubeEndpointsToResources_createMemDB eps]

/-- C4: the claimed memoization does not exist in the code: `createMemDB`
declares only a `services` table (and the cache value type has no `ID`
field for the index either), so every transform, first or repeated, fails
with an invalid-table error before reading or writing any cache entry, the
database never changes, and no cached resource slice is ever returned. -/
theorem endpoints_memoization_broken (ep : KubeEndpoints) :
    (kubeEndpointToResources createMemDB ep).result = .error "invalid table endpoints" ∧
    (kubeEndpointToResources createMemDB ep).dbAfter = createMemDB ∧
    (kubeEndpointToResources createMemDB ep).epAfter = ep := by
  rw [kubeEndpointToResources_createMemDB]
  exact ⟨rfl, rfl, rfl⟩

theorem convertAndCache_epAfter (db : MemDB) (ep : KubeEndpoints) :
    (kubeEndpointConvertAndCache db ep).epAfter = (kubeEndpointToResourcesCore ep).2 := by
  unfold kubeEndpointConvertAndCache
  cases h : txnInsert db "endpoints"
      (.cacheItem ⟨ep.resourceVersion, (kubeEndpointToResourcesCore ep).1⟩) <;> simp [h]

theorem kubeEndpointToResources_epAfter (db : MemDB) (ep : KubeEndpoints) :
    (kubeEndpointToResources db ep).epAfter = ep ∨
      (kubeEndpointToResources db ep).epAfter = (kubeEndpointToResourcesCore ep).2 := by
  cases h1 : txnFirst db "endpoints" (metaNamespaceKey ep) with
  | error e =>
    left
    simp [kubeEndpointToResources, h1]
  | ok cached =>
    match cached with
    | some (.cacheItem item) =>
      by_cases hv : item.version = ep.resourceVersion
      · left
        simp [kubeEndpointToResources, h1, hv]
      · right
        simp [kubeEndpointToResources, h1, hv, convertAndCache_epAfter]
    | some (.service s) =>
      left
      simp [kubeEndpointToResources, h1]
    | some (.endpointsObj o) =>
      left
      simp [kubeEndpointToResources, h1]
    | none =>
      right
      simp [kubeEndpointToResources, h1, convertAndCache_epAfter]

theorem subsetFrameRel_refl (ss : List EndpointSubset) : List.Forall₂ subsetFrameRel ss ss :=
  (List.forall₂_same).mpr fun _ _ => ⟨rfl, .refl _, .inl rfl⟩

theorem subsetFrameRel_core (ep : KubeEndpoints) :
    List.Forall₂ subsetFrameRel ep.subsets (kubeEndpointToResourcesCore ep).2.subsets := by
  simp only [kubeEndpointToResourcesCore]
  rw [List.forall₂_map_right_iff]
  refine (List.forall₂_same).mpr fun s _ => ?_
  refine ⟨rfl, ?_, ?_⟩
  · simp only [convertSubset]
    by_cases hp : s.ports.isEmpty <;> simp [hp, sortAddresses_perm]
  · simp only [convertSubset]
    by_cases hp : s.ports.isEmpty <;> simp [hp]

/-- C9 as stated is refuted: with the memo lookup not failing (the
`endpoints` table present in the schema), transforming an Endpoints object
whose addresses are unsorted sorts the input object's Addresses slice in
place (`sort.SliceStable` on the aliased slice), so the input does not
keep its original order. -/
theorem endpoint_transform_mutates_input :
    (kubeEndpointToResources ⟨["services", "endpoints"], []⟩ epSortWitness).epAfter
      ≠ epSortWitness := by decide

/-- C9 amended: the transform's only effect on the input object is the
in-place stable sort of each subset's Addresses slice (performed when the
conversion loop runs, i.e. whenever the subset has at least one port); the
metadata, the subset structure, the ports and the multiset of addresses of
every subset are preserved, and beyond that the transform only touches the
per-object memo. -/
theorem endpoint_transform_frame (db : MemDB) (ep : KubeEndpoints) :
    (kubeEndpointToResources db ep).epAfter.name = ep.name ∧
    (kubeEndpointToResources db ep).epAfter.nspace = ep.nspace ∧
    (kubeEndpointToResources db ep).epAfter.resourceVersion = ep.resourceVersion ∧
    List.Forall₂ subsetFrameRel ep.subsets (kubeEndpointToResources db ep).epAfter.subsets := by
  rcases kubeEndpointToResources_epAfter db ep with h | h <;> rw [h]
  · exact ⟨rfl, rfl, rfl, subsetFrameRel_refl ep.subsets⟩
  · exact ⟨rfl, rfl, rfl, subsetFrameRel_core ep⟩

/-! ## Reconcile pass theorems -/

theorem cacheEndpointsInMemDB_createMemDB (eps : List KubeEndpoints) :
    cacheEndpointsInMemDB createMemDB eps = createMemDB := by
  cases eps with
  | nil => rfl
  | cons ep eps => simp [cacheEndpointsInMemDB, insertAll, txnInsert, createMemDB]

/-- C1: in both reconcile passes, when the content hash of the derived
resource set equals the hash stored by the previous pass, the pass returns
without any `SetSnapshot` call, without touching the stored hash, and
without panicking (for the services pass the whole state is untouched);
and presenting the same input twice in a row — starting from a state whose
stored hash differs from the new hash, with snapshot construction
succeeding — produces exactly one `SetSnapshot` call over the two passes
(for the endpoints pass, on the database the program actually builds).
Stated for every hash function and snapshot constructor. -/
theorem reconcile_pass_idempotent :
    (∀ (hf : HashFn) (nf : NewSnapshotFn) (v : String) (services : List KubeService)
        (st : EmitState) (h : Nat),
      hf (mergedServiceResources services) = .ok h → h = st.lastSnapshotHash →
      (servicesEmit hf nf v services st).setSnapshotCalls = [] ∧
      (servicesEmit hf nf v services st).state = st ∧
      (servicesEmit hf nf v services st).outcome = .completed) ∧
    (∀ (hf : HashFn) (nf : NewSnapshotFn) (v1 v2 : String) (services : List KubeService)
        (st : EmitState) (h : Nat) (snap : Snapshot),
      hf (mergedServiceResources services) = .ok h → h ≠ st.lastSnapshotHash →
      nf v1 (resourcesToMap (mergedServiceResources services)) = .ok snap →
      (servicesEmit hf nf v1 services st).setSnapshotCalls.length +
        (servicesEmit hf nf v2 services
          (servicesEmit hf nf v1 services st).state).setSnapshotCalls.length = 1) ∧
    (∀ (hf : HashFn) (nf : NewSnapshotFn) (v : String) (eps : List KubeEndpoints)
        (st : EmitState) (h : Nat),
      hf (kubeEndpointsToResources st.db eps).1 = .ok h → h = st.lastSnapshotHash →
      (endpointsEmit hf nf v eps st).setSnapshotCalls = [] ∧
      (endpointsEmit hf nf v eps st).state.lastSnapshotHash = st.lastSnapshotHash ∧
      (endpointsEmit hf nf v eps st).outcome = .completed) ∧
    (∀ (hf : HashFn) (nf : NewSnapshotFn) (v1 v2 : String) (eps : List KubeEndpoints)
        (st : EmitState) (h : Nat) (snap : Snapshot),
      st.db = createMemDB →
      hf ([] : List Resource) = .ok h → h ≠ st.lastSnapshotHash →
      nf v1 (resourcesToMap []) = .ok snap →
      (endpointsEmit hf nf v1 eps st).setSnapshotCalls.length +
        (endpointsEmit hf nf v2 (endpointsEmit hf nf v1 eps st).epsAfter
          (endpointsEmit hf nf v1 eps st).state).setSnapshotCalls.length = 1) := by
  refine ⟨?_, ?_, ?_, ?_⟩
  · intro hf nf v services st h hh he
    simp [servicesEmit, hh, he]
  · intro hf nf v1 v2 services st h snap hh hne hsnap
    have e1 : servicesEmit hf nf v1 services st =
        ⟨⟨h, cacheServicesInMemDB st.db services⟩, [snap], .completed⟩ := by
      simp [servicesEmit, hh, hne, servicesPublish, hsnap]
    have e2 : servicesEmit hf nf v2 services ⟨h, cacheServicesInMemDB st.db services⟩ =
        ⟨⟨h, cacheServicesInMemDB st.db services⟩, [], .completed⟩ := by
      simp [servicesEmit, hh]
    simp [e1, e2]
  · intro hf nf v eps st h hh he
    simp [endpointsEmit, hh, he]
  · intro hf nf v1 v2 eps st h snap hdb hh hne hsnap
    have hker : kubeEndpointsToResources st.db eps = ([], eps, createMemDB) := by
      rw [hdb]
      exact kubeEndpointsToResources_createMemDB eps
    have e1 : endpointsEmit hf nf v1 eps st = ⟨⟨h, createMemDB⟩, eps, [snap], .completed⟩ := by
      simp [endpointsEmit, hker, hh, hne, endpointsPublish, hsnap,
        cacheEndpointsInMemDB_createMemDB]
    have e2 : endpointsEmit hf nf v2 eps ⟨h, createMemDB⟩ =
        ⟨⟨h, createMemDB⟩, eps, [], .completed⟩ := by
      simp [endpointsEmit, kubeEndpointsToResources_createMemDB, hh]
    simp [e1, e2]

/-- Witness for C1: the second services pass over the same (empty) input
publishes nothing, so the two passes together make exactly one
`SetSnapshot` call. -/
theorem reconcile_pass_idempotent_witness :
    (servicesEmit resourcesHashModel (fun v m => .ok ⟨v, m⟩) "v1" []
        ⟨0, createMemDB⟩).setSnapshotCalls.length +
      (servicesEmit resourcesHashModel (fun v m => .ok ⟨v, m⟩) "v2" []
        (servicesEmit resourcesHashModel (fun v m => .ok ⟨v, m⟩) "v1" []
          ⟨0, createMemDB⟩).state).setSnapshotCalls.length = 1 :=
  reconcile_pass_idempotent.2.1 resourcesHashModel (fun v m => .ok ⟨v, m⟩) "v1" "v2" []
    ⟨0, createMemDB⟩ 7 ⟨"v1", resourcesToMap (mergedServiceResources [])⟩
    rfl (by decide) rfl

/-- C7: a reconcile pass panics exactly on a snapshot-construction error:
whenever the pass's outcome is a panic, `cache.NewSnapshot` returned that
error; and conversely, once the hash gate lets the pass proceed, a failing
`cache.NewSnapshot` makes the pass panic without any `SetSnapshot` call.
No other failure on the publish path (hash error, memdb error) panics,
since a panic outcome always originates from the snapshot constructor. -/
theorem snapshot_construction_fatal :
    (∀ (hf : HashFn) (nf : NewSnapshotFn) (v : String) (services : List KubeService)
        (st : EmitState) (e : String),
      (servicesEmit hf nf v services st).outcome = .panicked e →
      nf v (resourcesToMap (mergedServiceResources services)) = .error e) ∧
    (∀ (hf : HashFn) (nf : NewSnapshotFn) (v : String) (services : List KubeService)
        (st : EmitState) (h : Nat) (e : String),
      hf (mergedServiceResources services) = .ok h → h ≠ st.lastSnapshotHash →
      nf v (resourcesToMap (mergedServiceResources services)) = .error e →
      (servicesEmit hf nf v services st).outcome = .panicked e ∧
      (servicesEmit hf nf v services st).setSnapshotCalls = []) ∧
    (∀ (hf : HashFn) (nf : NewSnapshotFn) (v : String) (eps : List KubeEndpoints)
        (st : EmitState) (e : String),
      (endpointsEmit hf nf v eps st).outcome = .panicked e →
      nf v (resourcesToMap (kubeEndpointsToResources st.db eps).1) = .error e) ∧
    (∀ (hf : HashFn) (nf : NewSnapshotFn) (v : String) (eps : List KubeEndpoints)
        (st : EmitState) (h : Nat) (e : String),
      hf (kubeEndpointsToResources st.db eps).1 = .ok h → h ≠ st.lastSnapshotHash →
      nf v (resourcesToMap (kubeEndpointsToResources st.db eps).1) = .error e →
      (endpointsEmit hf nf v eps st).outcome = .panicked e ∧
      (endpointsEmit hf nf v eps st).setSnapshotCalls = []) := by
  refine ⟨?_, ?_, ?_, ?_⟩
  · intro hf nf v services st e hout
    cases hh : hf (mergedServiceResources services) with
    | ok h =>
      by_cases he : h = st.lastSnapshotHash
      · simp [servicesEmit, hh, he] at hout
      · cases hnf : nf v (resourcesToMap (mergedServiceResources services)) with
        | error e2 =>
          simp [servicesEmit, hh, he, servicesPublish, hnf] at hout
          rw [hout]
        | ok snap => simp [servicesEmit, hh, he, servicesPublish, hnf] at hout
    | error e2 =>
      cases hnf : nf v (resourcesToMap (mergedServiceResources services)) with
      | error e3 =>
        simp [servicesEmit, hh, servicesPublish, hnf] at hout
        rw [hout]
      | ok snap => simp [servicesEmit, hh, servicesPublish, hnf] at hout
  · intro hf nf v services st h e hh hne hnf
    simp [servicesEmit, hh, hne, servicesPublish, hnf]
  · intro hf nf v eps st e hout
    cases hh : hf (kubeEndpointsToResources st.db eps).1 with
    | ok h =>
      by_cases he : h = st.lastSnapshotHash
      · simp [endpointsEmit, hh, he] at hout
      · cases hnf : nf v (resourcesToMap (kubeEndpointsToResources st.db eps).1) with
        | error e2 =>
          simp [endpointsEmit, hh, he, endpointsPublish, hnf] at hout
          rw [hout]
        | ok snap => simp [endpointsEmit, hh, he, endpointsPublish, hnf] at hout
    | error e2 =>
      cases hnf : nf v (resourcesToMap (kubeEndpointsToResources st.db eps).1) with
      | error e3 =>
        simp [endpointsEmit, hh, endpointsPublish, hnf] at hout
        rw [hout]
      | ok snap => simp [endpointsEmit, hh, endpointsPublish, hnf] at hout
  · intro hf nf v eps st h e hh hne hnf
    simp [endpointsEmit, hh, hne, endpointsPublish, hnf]

/-- Witness for C7: with a failing snapshot constructor and a fresh hash,
the services pass panics with that error and publishes nothing. -/
theorem snapshot_construction_fatal_witness :
    (servicesEmit (fun _ => .ok 1) (fun _ _ => .error "bad resource set") "v" []
        ⟨0, createMemDB⟩).outcome = .panicked "bad resource set" ∧
    (servicesEmit (fun _ => .ok 1) (fun _ _ => .error "bad resource set") "v" []
        ⟨0, createMemDB⟩).setSnapshotCalls = [] :=
  snapshot_construction_fatal.2.1 (fun _ => .ok 1) (fun _ _ => .error "bad resource set")
    "v" [] ⟨0, createMemDB⟩ 1 "bad resource set" rfl (by decide) rfl

/-- C10: when hashing the resource set fails, the pass logs the error,
leaves the stored hash unchanged, and publishes unconditionally: exactly
one `SetSnapshot` call is made (given the snapshot constructor succeeds)
and the stored hash after the pass is still the pre-failure value, so the
next successful hash is compared against it. -/
theorem hash_failure_bypasses_dedup :
    (∀ (hf : HashFn) (nf : NewSnapshotFn) (v : String) (services : List KubeService)
        (st : EmitState) (e : String) (snap : Snapshot),
      hf (mergedServiceResources services) = .error e →
      nf v (resourcesToMap (mergedServiceResources services)) = .ok snap →
      (servicesEmit hf nf v services st).setSnapshotCalls = [snap] ∧
      (servicesEmit hf nf v services st).state.lastSnapshotHash = st.lastSnapshotHash ∧
      (servicesEmit hf nf v services st).outcome = .completed) ∧
    (∀ (hf : HashFn) (nf : NewSnapshotFn) (v : String) (eps : List KubeEndpoints)
        (st : EmitState) (e : String) (snap : Snapshot),
      hf (kubeEndpointsToResources st.db eps).1 = .error e →
      nf v (resourcesToMap (kubeEndpointsToResources st.db eps).1) = .ok snap →
      (endpointsEmit hf nf v eps st).setSnapshotCalls = [snap] ∧
      (endpointsEmit hf nf v eps st).state.lastSnapshotHash = st.lastSnapshotHash ∧
      (endpointsEmit hf nf v eps st).outcome = .completed) := by
  constructor
  · intro hf nf v services st e snap hh hnf
    simp [servicesEmit, hh, servicesPublish, hnf]
  · intro hf nf v eps st e snap hh hnf
    simp [endpointsEmit, hh, endpointsPublish, hnf]

/-- Witness for C10: a failing hash with a stored hash of 5 still
publishes one snapshot and keeps the stored hash at 5. -/
theorem hash_failure_bypasses_dedup_witness :
    (servicesEmit (fun _ => .error "hash fail") (fun v m => .ok ⟨v, m⟩) "v" []
        ⟨5, createMemDB⟩).setSnapshotCalls
      = [⟨"v", resourcesToMap (mergedServiceResources [])⟩] ∧
    (servicesEmit (fun _ => .error "hash fail") (fun v m => .ok ⟨v, m⟩) "v" []
        ⟨5, createMemDB⟩).state.lastSnapshotHash = 5 ∧
    (servicesEmit (fun _ => .error "hash fail") (fun v m => .ok ⟨v, m⟩) "v" []
        ⟨5, createMemDB⟩).outcome = .completed :=
  hash_failure_bypasses_dedup.1 (fun _ => .error "hash fail") (fun v m => .ok ⟨v, m⟩)
    "v" [] ⟨5, createMemDB⟩ "hash fail" ⟨"v", resourcesToMap (mergedServiceResources [])⟩
    rfl rfl

/-! ## Load report theorems -/

theorem streamFold_registered (n : XdsNode) :
    ∀ (reqs : List LoadStatsRequest) (st : MeterServerState) (acc : List LoadStatsResponse),
      (∀ req ∈ reqs, req.node = some n) → n.id ∈ st.nodesConnected →
      reqs.foldl streamStep (st, acc) = (st, acc)
  | [], _, _, _, _ => rfl
  | req :: reqs, st, acc, hall, hin => by
    have hid : getNodeID req = n.id := by
      simp [getNodeID, hall req (by simp)]
    have hstep : streamStep (st, acc) req = (st, acc) := by
      simp [streamStep, handleRequest, hid, hin]
    simp only [List.foldl_cons, hstep]
    exact streamFold_registered n reqs st acc (fun r hr => hall r (by simp [hr])) hin

/-- C8: (a) the first report from a node not in the connected set registers
it, increments the gauge by one, and sends exactly one response carrying
the configured reporting interval (300 seconds by default) with endpoint
granularity enabled; (b) a report from an already-registered node changes
nothing and sends nothing; (c) a receive error deregisters the captured
node and decrements the gauge by one — so a whole stream of reports from
one fresh node sends exactly one response and restores the original
state. -/
theorem load_report_state_machine :
    (∀ (st : MeterServerState) (req : LoadStatsRequest),
      getNodeID req ∉ st.nodesConnected →
      handleRequest st req true =
        ({ st with nodesConnected := getNodeID req :: st.nodesConnected
                   nodeGauge := st.nodeGauge + 1 },
         [{ clusters := ["dummy_cluster"]
            loadReportingIntervalSeconds := st.statsIntervalInSeconds
            reportEndpointGranularity := true }])) ∧
    newMeterServerState.statsIntervalInSeconds = 300 ∧
    (∀ (st : MeterServerState) (req : LoadStatsRequest) (sendOk : Bool),
      getNodeID req ∈ st.nodesConnected → handleRequest st req sendOk = (st, [])) ∧
    (∀ (st : MeterServerState) (node : XdsNode),
      (removeNode st node).nodeGauge = st.nodeGauge - 1 ∧
      (removeNode st node).nodesConnected = st.nodesConnected.erase node.id) ∧
    (∀ (st : MeterServerState) (n : XdsNode) (reqs : List LoadStatsRequest),
      reqs ≠ [] → (∀ req ∈ reqs, req.node = some n) → n.id ∉ st.nodesConnected →
      streamLoadStats st reqs =
        (st, [{ clusters := ["dummy_cluster"]
                loadReportingIntervalSeconds := st.statsIntervalInSeconds
                reportEndpointGranularity := true }])) := by
  refine ⟨?_, rfl, ?_, ?_, ?_⟩
  · intro st req hnot
    simp [handleRequest, hnot]
  · intro st req sendOk hin
    simp [handleRequest, hin]
  · intro st node
    exact ⟨rfl, rfl⟩
  · intro st n reqs hne hall hnotin
    match reqs, hne with
    | req :: rest, _ =>
      have hreq : req.node = some n := hall req (by simp)
      have hid : getNodeID req = n.id := by simp [getNodeID, hreq]
      have hstep : streamStep (st, ([] : List LoadStatsResponse)) req =
          ({ st with nodesConnected := getNodeID req :: st.nodesConnected
                     nodeGauge := st.nodeGauge + 1 },
           [{ clusters := ["dummy_cluster"]
              loadReportingIntervalSeconds := st.statsIntervalInSeconds
              reportEndpointGranularity := true }]) := by
        simp [streamStep, handleRequest, hid, hnotin]
      have hfold := streamFold_registered n rest
        { st with nodesConnected := getNodeID req :: st.nodesConnected
                  nodeGauge := st.nodeGauge + 1 }
        [{ clusters := ["dummy_cluster"]
           loadReportingIntervalSeconds := st.statsIntervalInSeconds
           reportEndpointGranularity := true }]
        (fun r hr => hall r (by simp [hr]))
        (by rw [hid]; exact List.mem_cons_self _ _)
      have hfind : (req :: rest).findSome? (fun r => r.node) = some n := by
        simp [List.findSome?, hreq]
      simp only [streamLoadStats, List.foldl_cons, hstep, hfold, hfind]
      have hg : st.nodeGauge + 1 - 1 = st.nodeGauge := by omega
      simp [removeNode, hid, hg]

/-- Witness for C8: a stream of two reports from one fresh node (first
registers and is answered with the default 300-second interval and
endpoint granularity, second only logs), then a receive error that
deregisters it, returns the server to its initial state. -/
theorem load_report_state_machine_witness :
    streamLoadStats newMeterServerState
        [⟨some ⟨"node-1", "c1"⟩, []⟩, ⟨some ⟨"node-1", "c1"⟩, ["cluster-a"]⟩] =
      (newMeterServerState,
        [{ clusters := ["dummy_cluster"]
           loadReportingIntervalSeconds := 300
           reportEndpointGranularity := true }]) :=
  load_report_state_machine.2.2.2.2 newMeterServerState ⟨"node-1", "c1"⟩
    [⟨some ⟨"node-1", "c1"⟩, []⟩, ⟨some ⟨"node-1", "c1"⟩, ["cluster-a"]⟩]
    (by decide) (by decide) (by decide)

/-! ## API gateway theorems -/

theorem lookup_append_of_none {l1 l2 : List (String × RouteConfiguration)} {g : String}
    (h : l1.lookup g = none) : (l1 ++ l2).lookup g = l2.lookup g := by
  induction l1 with
  | nil => rfl
  | cons p l1 ih =>
    obtain ⟨k, v⟩ := p
    cases hk : (g == k) with
    | true => simp [List.lookup, hk] at h
    | false =>
      simp only [List.lookup, hk] at h
      simpa [List.lookup, hk] using ih h

theorem assocSet_fresh {l : List (String × RouteConfiguration)} {k : String}
    (v : RouteConfiguration) (h : l.lookup k = none) : assocSet l k v = l ++ [(k, v)] := by
  induction l with
  | nil => rfl
  | cons p l ih =>
    obtain ⟨k2, v2⟩ := p
    cases hk : (k == k2) with
    | true => simp [List.lookup, hk] at h
    | false =>
      simp only [List.lookup, hk] at h
      have hne : k2 ≠ k := fun he => by simp [he] at hk
      simp [assocSet, hne, ih h]

theorem lookup_map_self (f : String → RouteConfiguration) :
    ∀ {names : List String}, names.Nodup → ∀ {g : String}, g ∈ names →
      (names.map fun g => (g, f g)).lookup g = some (f g) := by
  intro names
  induction names with
  | nil => intro _ g hg; cases hg
  | cons n names ih =>
    intro hnd g hg
    rcases List.mem_cons.mp hg with he | hm
    · subst he
      simp [List.lookup]
    · have hne : (g == n) = false := by
        have : g ≠ n := fun he => ((List.nodup_cons.mp hnd).1 (he ▸ hm))
        simpa using this
      simp only [List.map_cons, List.lookup, hne]
      exact ih (List.nodup_cons.mp hnd).2 hm

theorem gatewayFold_char (svc : KubeService) (rpcs : List String) :
    ∀ (names : List String) (acc : GatewayAcc), names.Nodup →
      (∀ g ∈ names, g ∉ acc.gateways) →
      (∀ g ∈ names, acc.routerConfigs.lookup g = none) →
      names.foldl (processGateway svc rpcs) acc =
        ⟨acc.gateways ++ names,
         acc.routerConfigs ++ names.map fun g => (g, gatewayFullRC svc rpcs g)⟩
  | [], acc, _, _, _ => by simp
  | g :: names, acc, hnd, hfresh, hrc => by
    have hg_not : g ∉ acc.gateways := hfresh g (by simp)
    have hg_rc : acc.routerConfigs.lookup g = none := hrc g (by simp)
    have hstep : processGateway svc rpcs acc g =
        ⟨acc.gateways ++ [g], acc.routerConfigs ++ [(g, gatewayFullRC svc rpcs g)]⟩ := by
      simp [processGateway, hg_not, hg_rc, assocSet_fresh _ hg_rc, addRoutes,
        emptyGatewayRC, gatewayFullRC]
    have hnotin_names : g ∉ names := (List.nodup_cons.mp hnd).1
    rw [List.foldl_cons, hstep,
      gatewayFold_char svc rpcs names
        ⟨acc.gateways ++ [g], acc.routerConfigs ++ [(g, gatewayFullRC svc rpcs g)]⟩
        (List.nodup_cons.mp hnd).2
        (by intro g2 hg2
            simp only [List.mem_append, List.mem_singleton]
            rintro (h2 | h2)
            · exact hfresh g2 (by simp [hg2]) h2
            · exact hnotin_names (h2 ▸ hg2))
        (by intro g2 hg2
            rw [lookup_append_of_none (hrc g2 (by simp [hg2]))]
            have : (g2 == g) = false := by
              have : g2 ≠ g := fun he => hnotin_names (he ▸ hg2)
              simpa using this
            simp [List.lookup, this])]
    simp

theorem processService_skip (svc : KubeService) (acc : GatewayAcc)
    (h : serviceEligible svc = false) : processService acc svc = acc := by
  cases hn : lookupAnn svc nameAnnotationKey with
  | none => simp [processService, hn]
  | some raw =>
    simp only [serviceEligible, hn, Bool.and_eq_true, Bool.and_eq_false_iff] at h
    by_cases hall : (splitOnComma raw).all nameRegexMatch = true
    · cases hs : lookupAnn svc serviceAnnotationKey with
      | none => simp [processService, hn, hall, hs]
      | some grpcRaw =>
        have hport : svc.ports.any (fun p => p.name = grpcPortName) = false := by
          rcases h with h | h
          · rcases h with h | h
            · rw [hall] at h; cases h
            · rw [hs] at h; simp at h
          · exact h
        simp [processService, hn, hall, hs, hport]
    · simp [processService, hn, Bool.of_not_eq_true hall]

theorem processService_eligible (svc : KubeService) (raw grpcRaw : String)
    (hn : lookupAnn svc nameAnnotationKey = some raw)
    (hs : lookupAnn svc serviceAnnotationKey = some grpcRaw)
    (hall : (splitOnComma raw).all nameRegexMatch = true)
    (hport : svc.ports.any (fun p => p.name = grpcPortName) = true)
    (hnd : (splitOnComma raw).Nodup) :
    processService ⟨[], []⟩ svc =
      ⟨splitOnComma raw,
       (splitOnComma raw).map fun g => (g, gatewayFullRC svc (splitOnComma grpcRaw) g)⟩ := by
  simp only [processService, hn, hs, hall, hport, not_true, if_false]
  rw [gatewayFold_char svc (splitOnComma grpcRaw) (splitOnComma raw) ⟨[], []⟩ hnd
    (by intro g _; exact List.not_mem_nil g) (by intro g _; rfl)]
  simp

/-- C3: a service contributes to the gateway output iff it carries the
gateway annotation with every comma-separated name matching
`^[a-z0-9][a-z0-9-]{0,63}$`, carries the gRPC-service annotation, and has
a port literally named `grpc` (an ineligible service leaves any
accumulated gateway state untouched); an eligible service yields, per
distinct gateway name, one listener and one route configuration whose
single virtual host holds exactly one route named `rpc` with prefix
`/rpc/` and cluster `name.namespace:grpc` per distinct rpc; gateway name
`Bad_Name` produces no gateway output at all, while `valid-name` with rpc
`orders` produces exactly one route `/orders/` under virtual host
`valid-name`. -/
theorem gateway_membership_and_routes :
    (∀ (svc : KubeService) (acc : GatewayAcc),
      serviceEligible svc = false → processService acc svc = acc) ∧
    (∀ (svc : KubeService) (raw grpcRaw : String),
      lookupAnn svc nameAnnotationKey = some raw →
      lookupAnn svc serviceAnnotationKey = some grpcRaw →
      serviceEligible svc = true → (splitOnComma raw).Nodup →
      FromKubeServices [svc] =
        ((splitOnComma raw).map (fun g =>
            Resource.listener ⟨g, some (gatewayFullRC svc (splitOnComma grpcRaw) g)⟩) ++
          (splitOnComma raw).map (fun g =>
            Resource.routeConfiguration (gatewayFullRC svc (splitOnComma grpcRaw) g)),
         (splitOnComma raw).map fun g => (g, (splitOnComma grpcRaw).length))) ∧
    (∀ (svc : KubeService) (rpcs : List String) (g r : String),
      rpcs.Nodup → r ∈ rpcs →
      ∃ vh, (gatewayFullRC svc rpcs g).virtualHosts = [vh] ∧
        vh.routes.countP (fun route => route.name == r) = 1) ∧
    FromKubeServices [badGatewaySvc] = ([], []) ∧
    FromKubeServices [goodGatewaySvc] =
      ([Resource.listener ⟨"valid-name",
          some (gatewayFullRC goodGatewaySvc ["orders"] "valid-name")⟩,
        Resource.routeConfiguration (gatewayFullRC goodGatewaySvc ["orders"] "valid-name")],
       [("valid-name", 1)]) ∧
    gatewayFullRC goodGatewaySvc ["orders"] "valid-name" =
      ⟨"valid-name", [⟨"valid-name", ["valid-name"],
        [⟨"orders", "/orders/", "checkout.shop:grpc"⟩]⟩]⟩ := by
  refine ⟨processService_skip, ?_, ?_, by decide, by decide, by decide⟩
  · intro svc raw grpcRaw hn hs he hnd
    simp only [serviceEligible, hn, hs, Option.isSome_some, Bool.and_true,
      Bool.and_eq_true] at he
    obtain ⟨hall, hport⟩ := he
    show FromKubeServices [svc] = _
    unfold FromKubeServices
    rw [show List.foldl processService ⟨[], []⟩ [svc] = processService ⟨[], []⟩ svc from rfl]
    rw [processService_eligible svc raw grpcRaw hn hs hall hport hnd]
    refine congrArg₂ Prod.mk (congrArg₂ (· ++ ·) ?_ ?_) ?_
    · apply List.map_congr_left
      intro g hg
      rw [lookup_map_self (gatewayFullRC svc (splitOnComma grpcRaw)) hnd hg]
    · rw [List.map_map]
      rfl
    · apply List.map_congr_left
      intro g hg
      rw [lookup_map_self (gatewayFullRC svc (splitOnComma grpcRaw)) hnd hg]
      simp [gatewayFullRC, gatewayRouteCount]
  · intro svc rpcs g r hnd hr
    refine ⟨_, rfl, ?_⟩
    have hmapc : (rpcs.map (mkGatewayRoute svc)).countP (fun route => route.name == r)
        = rpcs.countP (fun x => x == r) := by
      rw [List.countP_map]
      rfl
    simp only [gatewayFullRC] at hmapc ⊢
    rw [hmapc]
    exact List.count_eq_one_of_mem hnd hr

/-- Witness for C3: the `Bad_Name` service contributes nothing even to a
fresh accumulator, and the `valid-name`/`orders` service yields exactly
the one listener, one route configuration and one `/orders/` route. -/
theorem gateway_membership_and_routes_witness :
    processService ⟨[], []⟩ badGatewaySvc = ⟨[], []⟩ ∧
    FromKubeServices [goodGatewaySvc] =
      ([Resource.listener ⟨"valid-name",
          some (gatewayFullRC goodGatewaySvc ["orders"] "valid-name")⟩,
        Resource.routeConfiguration (gatewayFullRC goodGatewaySvc ["orders"] "valid-name")],
       [("valid-name", 1)]) :=
  ⟨gateway_membership_and_routes.1 badGatewaySvc ⟨[], []⟩ (by decide),
   gateway_membership_and_routes.2.1 goodGatewaySvc "valid-name" "orders"
     (by decide) (by decide) (by decide) (by decide)⟩

end Xds
